import Mathlib

/-!
Verification of the refresh/retry engine and cache store of
`aws-secrets-cache` (`src/awsSecretsManagerCache.ts`).

The embedding models the class `AWSSecretsManagerCache`:
  * the cache (`Map<string, CacheEntry>`) as an association list with
    JS-`Map` set/get/delete semantics,
  * the secret mappings object as an association list with JS-object
    upsert/delete semantics,
  * `fetchSecretWithRetry` as a recursive function over an abstract
    per-attempt behaviour of the AWS client (`client.send`), returning
    the updated cache together with the emitted events, the backoff
    delays slept, and the number of attempts made,
  * `JSON.parse` and UTF-8 decoding of `Buffer.from(..).toString` as an
    abstract environment (they are host-language builtins), and
    `JSON.stringify` on decoded secret values as an executable
    serializer over a JSON value type,
  * promise rejection as `Except String`: every step of the `try` block
    that can throw is `Except`-valued, and the `catch` block is the
    `match` on that value.
-/

namespace AwsSecretsCache

/-- A JSON value, the result of `JSON.parse` on a `SecretString`. -/
inductive Json where
  | null : Json
  | bool (b : Bool) : Json
  | num (n : Int) : Json
  | str (s : String) : Json
  | arr (elems : List Json) : Json
  | obj (fields : List (String × Json)) : Json
deriving Repr

/-- Escaping of `"` and `\` inside a JSON string literal. -/
def escapeChars (cs : List Char) : List Char :=
  match cs with
  | [] => []
  | c :: rest =>
    if c = '"' ∨ c = '\\' then '\\' :: c :: escapeChars rest
    else c :: escapeChars rest

/-- `JSON.stringify` on a string. -/
def stringifyString (s : String) : String :=
  "\"" ++ String.mk (escapeChars s.data) ++ "\""

mutual
/-- `JSON.stringify` on a JSON value. -/
def stringify : Json → String
  | .null => "null"
  | .bool true => "true"
  | .bool false => "false"
  | .num n => toString n
  | .str s => stringifyString s
  | .arr elems => "[" ++ stringifyArr elems ++ "]"
  | .obj fields => "\x7b" ++ stringifyObj fields ++ "\x7d"

def stringifyArr : List Json → String
  | [] => ""
  | [j] => stringify j
  | j :: rest => stringify j ++ "," ++ stringifyArr rest

def stringifyObj : List (String × Json) → String
  | [] => ""
  | [(k, j)] => stringifyString k ++ ":" ++ stringify j
  | (k, j) :: rest => stringifyString k ++ ":" ++ stringify j ++ "," ++ stringifyObj rest
end

/-- `type SecretValue = string | Buffer | Record<string, unknown>`, as it
occurs after decoding: either the JSON document parsed from
`SecretString`, or a text value (the UTF-8 decoding of `SecretBinary`,
or the fallback `''`). -/
inductive SecretValue where
  | json (j : Json) : SecretValue
  | text (s : String) : SecretValue
deriving Repr

/-- `JSON.stringify` on a decoded secret value (a JS string stringifies
as a quoted string literal). -/
def stringifySV : SecretValue → String
  | .json j => stringify j
  | .text s => stringifyString s

/-- `interface CacheEntry { value: SecretValue; fetchedAt: number }`. -/
structure CacheEntry where
  value : SecretValue
  fetchedAt : Nat
deriving Repr

/-- The `Map<string, CacheEntry>` cache, as an association list with
unique keys maintained by `mapSet`. -/
abbrev Cache := List (String × CacheEntry)

/-- JS `Map.get` / object indexing: the value at a key, if present. -/
def mapGet {α : Type} (m : List (String × α)) (k : String) : Option α :=
  match m with
  | [] => none
  | (k₀, v₀) :: rest => if k₀ = k then some v₀ else mapGet rest k

/-- JS `Map.set` / object upsert: replace in place if the key exists
(keys are unique in a `Map` and in a JS object), append otherwise. -/
def mapSet {α : Type} (m : List (String × α)) (k : String) (v : α) :
    List (String × α) :=
  match m with
  | [] => [(k, v)]
  | (k₀, v₀) :: rest => if k₀ = k then (k, v) :: rest else (k₀, v₀) :: mapSet rest k v

/-- JS `Map.delete` / `delete obj[k]`. -/
def mapDelete {α : Type} (m : List (String × α)) (k : String) :
    List (String × α) :=
  match m with
  | [] => []
  | (k₀, v₀) :: rest => if k₀ = k then mapDelete rest k else (k₀, v₀) :: mapDelete rest k

/-- `GetSecretValueCommandOutput`: the fields the code reads.
`SecretString` is an optional string; `SecretBinary` is an optional
byte payload. -/
structure Response where
  SecretString : Option String
  SecretBinary : Option (List Nat)

/-- One behaviour of `await this.client.send(command)`: the promise
rejects, or resolves with a (possibly falsy) response. -/
inductive AttemptResult where
  | throws (msg : String) : AttemptResult
  | returns (response : Option Response) : AttemptResult

/-- Host-language builtins used by the decoding step: `JSON.parse`
(which may throw, hence `Option`) and `Buffer.from(..).toString('utf-8')`. -/
structure Env where
  parseJson : String → Option Json
  utf8Decode : List Nat → String

/-- JS truthiness of `response.SecretString`: present and non-empty.
(`response.SecretBinary` is a `Uint8Array`, an object, hence truthy
exactly when present.) -/
def truthyString : Option String → Bool
  | some s => !s.isEmpty
  | none => false

/-- The configuration fields the engine reads (after schema defaults). -/
structure Config where
  maxRetries : Nat
  retryDelay : Nat
  refreshInterval : Nat
  disableEvents : Bool

/-- The event payloads emitted by `this.emit`. -/
inductive Event where
  | update (userId : String) (value : SecretValue) (timestamp : Nat) : Event
  | error (userId : Option String) (msg : String) (timestamp : Nat) : Event
  | start (timestamp : Nat) : Event
  | stop (timestamp : Nat) : Event
  | remove (userId : String) (timestamp : Nat) : Event
  | clear (timestamp : Nat) : Event
deriving Repr

def isUpdateEvent : Event → Bool
  | .update _ _ _ => true
  | _ => false

def isErrorEvent : Event → Bool
  | .error _ _ _ => true
  | _ => false

def isUpdateEventFor (userId : String) : Event → Bool
  | .update u _ _ => u = userId
  | _ => false

/-- The observable result of one `fetchSecretWithRetry` call: the cache
it leaves behind, the events it emitted, the backoff delays it slept
(in order), and how many times it called `client.send`. -/
structure FetchOutcome where
  cache : Cache
  events : List Event
  delays : List Nat
  attemptsMade : Nat
deriving Repr

/-- The `try` block of `fetchSecretWithRetry` up to and including the
decoding of the response (`.error` is a thrown exception, to be caught
by the `catch` block):

```ts
const response = await this.client.send(command);
if (!response) throw new Error(`No response received for secret ...`);
const secretValue: SecretValue = response.SecretString
  ? JSON.parse(response.SecretString)
  : response.SecretBinary
  ? Buffer.from(response.SecretBinary).toString('utf-8')
  : '';
``` -/
def attemptFetch (env : Env) (secretId : String) (r : AttemptResult) :
    Except String SecretValue :=
  match r with
  | .throws msg => .error msg
  | .returns none => .error ("No response received for secret " ++ secretId)
  | .returns (some response) =>
    if truthyString response.SecretString then
      match env.parseJson (response.SecretString.getD "") with
      | some j => .ok (.json j)
      | none => .error "Unexpected token in JSON"
    else if response.SecretBinary.isSome then
      .ok (.text (env.utf8Decode (response.SecretBinary.getD [])))
    else
      .ok (.text "")

/-- `fetchSecretWithRetry(userId, secretId, attempt = 1)`.

`src` gives the behaviour of `client.send` at each (1-based) attempt;
`now` stands for `Date.now()`. On success, the new entry is written and
an `update` event emitted only when there is no current entry or the
`JSON.stringify` serializations differ; on failure, if
`attempt <= maxRetries` the engine sleeps `retryDelay * 2^(attempt-1)`
and recurses at `attempt + 1`, otherwise it emits an `error` event and
resolves. The function rejects (`.error`) only if an exception escapes
its `try`/`catch`. -/
def fetchSecretWithRetry (cfg : Config) (env : Env) (src : Nat → AttemptResult)
    (userId secretId : String) (cache : Cache) (now : Nat) (attempt : Nat) :
    Except String FetchOutcome :=
  match attemptFetch env secretId (src attempt) with
  | .ok secretValue =>
    let currentEntry := mapGet cache userId
    let newEntry : CacheEntry := { value := secretValue, fetchedAt := now }
    if currentEntry.elim true (fun e => !(stringifySV e.value == stringifySV secretValue)) then
      .ok { cache := mapSet cache userId newEntry
            events := if cfg.disableEvents then [] else
              [.update userId secretValue now]
            delays := []
            attemptsMade := 1 }
    else
      .ok { cache := cache, events := [], delays := [], attemptsMade := 1 }
  | .error e =>
    if h : attempt ≤ cfg.maxRetries then
      let delay := cfg.retryDelay * 2 ^ (attempt - 1)
      match fetchSecretWithRetry cfg env src userId secretId cache now (attempt + 1) with
      | .ok rest =>
        .ok { rest with delays := delay :: rest.delays
                        attemptsMade := rest.attemptsMade + 1 }
      | .error e' => .error e'
    else
      .ok { cache := cache
            events := if cfg.disableEvents then [] else
              [.error (some userId) e now]
            delays := []
            attemptsMade := 1 }
termination_by cfg.maxRetries + 1 - attempt
decreasing_by omega

/-- The mutable state of an `AWSSecretsManagerCache` instance:
`this.cache`, `this.config.secretMappings` (the alias registry),
`this.isRunning`, and whether `this.refreshIntervalId` is defined and
whether that interval is still armed (`clearInterval` cancels the timer
but leaves `refreshIntervalId` set). -/
structure CacheState where
  cache : Cache
  secretMappings : List (String × String)
  isRunning : Bool
  intervalSet : Bool
  timerArmed : Bool

/-- `fetchAllSecrets`: one `fetchSecretWithRetry` per entry of
`secretMappings`, all awaited (`Promise.all`); the per-alias fetches
touch distinct cache keys, so the fan-out is linearized as a fold.
`srcs` gives the behaviour of `client.send` per secret id and attempt. -/
def fetchAllSecretsGo (cfg : Config) (env : Env)
    (srcs : String → Nat → AttemptResult)
    (mappings : List (String × String)) (cache : Cache) (now : Nat) :
    Except String (Cache × List Event) :=
  match mappings with
  | [] => .ok (cache, [])
  | (userId, secretId) :: rest =>
    match fetchSecretWithRetry cfg env (srcs secretId) userId secretId cache now 1 with
    | .error e => .error e
    | .ok o =>
      match fetchAllSecretsGo cfg env srcs rest o.cache now with
      | .error e => .error e
      | .ok (c, evs) => .ok (c, o.events ++ evs)

/-- `fetchAllSecrets` on the instance state. -/
def fetchAllSecrets (cfg : Config) (env : Env)
    (srcs : String → Nat → AttemptResult) (s : CacheState) (now : Nat) :
    Except String (CacheState × List Event) :=
  match fetchAllSecretsGo cfg env srcs s.secretMappings s.cache now with
  | .error e => .error e
  | .ok (c, evs) => .ok ({ s with cache := c }, evs)

/-- `startScheduledRefresh()`: if not running, set running, arm the
interval timer, and emit a `start` event (unless events are disabled).
The extra `Bool` reports whether `setInterval` was called. -/
def startScheduledRefresh (cfg : Config) (s : CacheState) (now : Nat) :
    CacheState × List Event × Bool :=
  if !s.isRunning then
    ({ s with isRunning := true, intervalSet := true, timerArmed := true },
     (if cfg.disableEvents then [] else [.start now]), true)
  else
    (s, [], false)

/-- `stopScheduledRefresh()`: if running and the interval id is set,
cancel the timer, clear running, and emit a `stop` event (unless events
are disabled). The extra `Bool` reports whether `clearInterval` was
called. -/
def stopScheduledRefresh (cfg : Config) (s : CacheState) (now : Nat) :
    CacheState × List Event × Bool :=
  if s.isRunning && s.intervalSet then
    ({ s with isRunning := false, timerArmed := false },
     (if cfg.disableEvents then [] else [.stop now]), true)
  else
    (s, [], false)

/-- `initialize()`: one eager `fetchAllSecrets`, then
`startScheduledRefresh`. -/
def initCache (cfg : Config) (env : Env)
    (srcs : String → Nat → AttemptResult) (s : CacheState) (now : Nat) :
    Except String (CacheState × List Event) :=
  match fetchAllSecrets cfg env srcs s now with
  | .error e => .error e
  | .ok (s1, evs) =>
    let (s2, evs2, _) := startScheduledRefresh cfg s1 now
    .ok (s2, evs ++ evs2)

/-- `getSecret(userId)`: `this.cache.get(userId)?.value`, on a raw cache. -/
def getSecretFrom (cache : Cache) (userId : String) : Option SecretValue :=
  (mapGet cache userId).map (·.value)

/-- `getSecret(userId)` on the instance state. -/
def getSecret (s : CacheState) (userId : String) : Option SecretValue :=
  getSecretFrom s.cache userId

/-- `getAllSecrets()`. -/
def getAllSecrets (s : CacheState) : List (String × SecretValue) :=
  s.cache.map (fun p => (p.1, p.2.value))

/-- `getCacheStats()`: `{ size: this.cache.size }`. -/
def getCacheStats (s : CacheState) : Nat :=
  s.cache.length

/-- `addSecretMapping(userId, secretId)`: upsert the mapping, then one
awaited `fetchSecretWithRetry` for that alias. -/
def addSecretMapping (cfg : Config) (env : Env) (src : Nat → AttemptResult)
    (s : CacheState) (userId secretId : String) (now : Nat) :
    Except String (CacheState × List Event) :=
  let s1 := { s with secretMappings := mapSet s.secretMappings userId secretId }
  match fetchSecretWithRetry cfg env src userId secretId s1.cache now 1 with
  | .error e => .error e
  | .ok o => .ok ({ s1 with cache := o.cache }, o.events)

/-- `removeSecretMapping(userId)`: delete the mapping and the cache
entry, emit a `remove` event (unless events are disabled). -/
def removeSecretMapping (cfg : Config) (s : CacheState) (userId : String)
    (now : Nat) : CacheState × List Event :=
  ({ s with secretMappings := mapDelete s.secretMappings userId
            cache := mapDelete s.cache userId },
   if cfg.disableEvents then [] else [.remove userId now])

/-- `clearCache()`: clear the cache, stop the scheduler if running,
emit a `clear` event (unless events are disabled). -/
def clearCache (cfg : Config) (s : CacheState) (now : Nat) :
    CacheState × List Event :=
  let s1 := { s with cache := [] }
  let (s2, evs, _) :=
    if s1.isRunning then stopScheduledRefresh cfg s1 now else (s1, [], false)
  (s2, evs ++ (if cfg.disableEvents then [] else [.clear now]))

/-! ### Association-list lemmas -/

theorem mapGet_mapSet_self {α : Type} (m : List (String × α)) (k : String) (v : α) :
    mapGet (mapSet m k v) k = some v := by
  induction m with
  | nil => simp [mapGet, mapSet]
  | cons p rest ih =>
    obtain ⟨k₀, v₀⟩ := p
    by_cases h : k₀ = k
    · simp [mapGet, mapSet, h]
    · simp [mapGet, mapSet, h, ih]

theorem mapGet_mapSet_ne {α : Type} (m : List (String × α)) (k k' : String) (v : α)
    (h : k' ≠ k) : mapGet (mapSet m k v) k' = mapGet m k' := by
  have h' : ¬ k = k' := fun hh => h hh.symm
  induction m with
  | nil => simp [mapGet, mapSet, h']
  | cons p rest ih =>
    obtain ⟨k₀, v₀⟩ := p
    by_cases h₀ : k₀ = k
    · subst h₀
      simp [mapGet, mapSet, h']
    · simp only [mapSet, if_neg h₀]
      by_cases h₁ : k₀ = k'
      · simp [mapGet, h₁]
      · simp [mapGet, h₁, ih]

theorem mapGet_mapDelete {α : Type} (m : List (String × α)) (k k' : String) :
    mapGet (mapDelete m k) k' = if k' = k then none else mapGet m k' := by
  induction m with
  | nil => simp [mapGet, mapDelete]
  | cons p rest ih =>
    obtain ⟨k₀, v₀⟩ := p
    by_cases h₀ : k₀ = k
    · subst h₀
      rw [show mapDelete ((k₀, v₀) :: rest) k₀ = mapDelete rest k₀ by simp [mapDelete]]
      rw [ih]
      by_cases h₁ : k' = k₀
      · simp [h₁]
      · have h₂ : ¬ k₀ = k' := fun hh => h₁ hh.symm
        simp [h₁, h₂, mapGet]
    · rw [show mapDelete ((k₀, v₀) :: rest) k = (k₀, v₀) :: mapDelete rest k by
        simp [mapDelete, h₀]]
      by_cases h₁ : k₀ = k'
      · subst h₁
        have h₂ : ¬ k₀ = k := h₀
        simp [mapGet, h₂]
      · simp [mapGet, h₁, ih]

/-! ### Behaviour of `fetchSecretWithRetry` -/

/-- Unfolding on a successful (decoded) attempt: exactly one attempt is
made, no delay is slept, and the cache/event effect is decided by the
`JSON.stringify` comparison with the current entry. -/
theorem fetchSecretWithRetry_ok (cfg : Config) (env : Env) (src : Nat → AttemptResult)
    (uid sid : String) (cache : Cache) (now attempt : Nat) (v : SecretValue)
    (hok : attemptFetch env sid (src attempt) = .ok v) :
    fetchSecretWithRetry cfg env src uid sid cache now attempt =
      (if ((mapGet cache uid).elim true fun e => !(stringifySV e.value == stringifySV v)) then
        .ok { cache := mapSet cache uid { value := v, fetchedAt := now }
              events := if cfg.disableEvents then [] else [.update uid v now]
              delays := []
              attemptsMade := 1 }
      else
        .ok { cache := cache, events := [], delays := [], attemptsMade := 1 }) := by
  rw [fetchSecretWithRetry.eq_def, hok]

/-- When every attempt fails (the thrown values being `m 1`, `m 2`, …),
`fetchSecretWithRetry` at attempt `a ≤ maxRetries + 1` leaves the cache
untouched, sleeps the exponential-backoff delays, makes
`maxRetries + 2 - a` send attempts in total, and ends with a single
`error` event carrying the last attempt's error. -/
theorem fetchSecretWithRetry_allFail (cfg : Config) (env : Env) (src : Nat → AttemptResult)
    (uid sid : String) (cache : Cache) (now : Nat) (m : Nat → String)
    (hfail : ∀ a, attemptFetch env sid (src a) = .error (m a)) :
    ∀ n attempt, 1 ≤ attempt → cfg.maxRetries + 1 - attempt = n →
      attempt ≤ cfg.maxRetries + 1 →
    fetchSecretWithRetry cfg env src uid sid cache now attempt =
      .ok { cache := cache
            events := if cfg.disableEvents then [] else
              [.error (some uid) (m (cfg.maxRetries + 1)) now]
            delays := (List.range n).map (fun i => cfg.retryDelay * 2 ^ (attempt - 1 + i))
            attemptsMade := n + 1 } := by
  intro n
  induction n with
  | zero =>
    intro attempt h1 hn hle
    have hgt : ¬ attempt ≤ cfg.maxRetries := by omega
    have ha : attempt = cfg.maxRetries + 1 := by omega
    rw [fetchSecretWithRetry.eq_def, hfail]
    simp [hgt, ha]
  | succ n ih =>
    intro attempt h1 hn hle
    have hle' : attempt ≤ cfg.maxRetries := by omega
    rw [fetchSecretWithRetry.eq_def, hfail]
    rw [ih (attempt + 1) (by omega) (by omega) (by omega)]
    simp only [hle', dif_pos, Except.ok.injEq]
    have hfun : ((fun i => cfg.retryDelay * 2 ^ (attempt - 1 + i)) ∘ Nat.succ) =
        (fun i => cfg.retryDelay * 2 ^ (attempt + 1 - 1 + i)) := by
      funext i
      have h2 : attempt - 1 + Nat.succ i = attempt + 1 - 1 + i := by omega
      simp only [Function.comp_apply, h2]
    rw [List.range_succ_eq_map, List.map_cons, List.map_map, hfun]
    simp

/-- Whatever the attempt behaviours, `fetchSecretWithRetry` resolves
(never rejects), and the cache it leaves behind is either the starting
cache or the starting cache with the fetched alias set to a
successfully decoded value. -/
theorem fetchSecretWithRetry_frame (cfg : Config) (env : Env) (src : Nat → AttemptResult)
    (uid sid : String) (cache : Cache) (now : Nat) :
    ∀ n attempt, cfg.maxRetries + 1 - attempt ≤ n →
    ∃ o, fetchSecretWithRetry cfg env src uid sid cache now attempt = .ok o ∧
      (o.cache = cache ∨ ∃ a v, attemptFetch env sid (src a) = .ok v ∧
        o.cache = mapSet cache uid { value := v, fetchedAt := now }) := by
  intro n
  induction n with
  | zero =>
    intro attempt hn
    rw [fetchSecretWithRetry.eq_def]
    cases hf : attemptFetch env sid (src attempt) with
    | ok v =>
      by_cases hc : ((mapGet cache uid).elim true fun e => !(stringifySV e.value == stringifySV v)) = true
      · exact ⟨{ cache := mapSet cache uid { value := v, fetchedAt := now }, events := if cfg.disableEvents then [] else [.update uid v now], delays := [], attemptsMade := 1 }, by simp [hc], Or.inr ⟨attempt, v, hf, rfl⟩⟩
      · exact ⟨{ cache := cache, events := [], delays := [], attemptsMade := 1 }, by simp [hc], Or.inl rfl⟩
    | error e =>
      have hgt : ¬ attempt ≤ cfg.maxRetries := by omega
      exact ⟨{ cache := cache, events := if cfg.disableEvents then [] else [.error (some uid) e now], delays := [], attemptsMade := 1 }, by simp [hgt], Or.inl rfl⟩
  | succ n ih =>
    intro attempt hn
    rw [fetchSecretWithRetry.eq_def]
    cases hf : attemptFetch env sid (src attempt) with
    | ok v =>
      by_cases hc : ((mapGet cache uid).elim true fun e => !(stringifySV e.value == stringifySV v)) = true
      · exact ⟨{ cache := mapSet cache uid { value := v, fetchedAt := now }, events := if cfg.disableEvents then [] else [.update uid v now], delays := [], attemptsMade := 1 }, by simp [hc], Or.inr ⟨attempt, v, hf, rfl⟩⟩
      · exact ⟨{ cache := cache, events := [], delays := [], attemptsMade := 1 }, by simp [hc], Or.inl rfl⟩
    | error e =>
      by_cases hle : attempt ≤ cfg.maxRetries
      · obtain ⟨o, ho, hdisj⟩ := ih (attempt + 1) (by omega)
        refine ⟨{ o with delays := cfg.retryDelay * 2 ^ (attempt - 1) :: o.delays, attemptsMade := o.attemptsMade + 1 }, ?_, ?_⟩
        · simp only [hle, dif_pos]
          rw [ho]
        · exact hdisj
      · exact ⟨{ cache := cache, events := if cfg.disableEvents then [] else [.error (some uid) e now], delays := [], attemptsMade := 1 }, by simp [hle], Or.inl rfl⟩

/-- `fetchAllSecretsGo` resolves for every registry and source behaviour. -/
theorem fetchAllSecretsGo_isOk (cfg : Config) (env : Env)
    (srcs : String → Nat → AttemptResult) (now : Nat) :
    ∀ (mappings : List (String × String)) (cache : Cache),
    ∃ r, fetchAllSecretsGo cfg env srcs mappings cache now = .ok r := by
  intro mappings
  induction mappings with
  | nil => exact fun cache => ⟨(cache, []), rfl⟩
  | cons p rest ih =>
    intro cache
    obtain ⟨k, v⟩ := p
    obtain ⟨o, ho, -⟩ := fetchSecretWithRetry_frame cfg env (srcs v) k v cache now
      (cfg.maxRetries + 1) 1 (by omega)
    obtain ⟨⟨c, evs⟩, hr⟩ := ih o.cache
    exact ⟨(c, o.events ++ evs), by simp [fetchAllSecretsGo, ho, hr]⟩

/-- A full fan-out over fresh aliases (none cached yet), each of whose
sources succeeds at the first attempt: every alias ends up cached with
its decoded value, exactly one `update` event fires per alias, all
events are `update` events, and no other cache key is touched. -/
theorem fetchAllSecretsGo_fresh (cfg : Config) (env : Env)
    (srcs : String → Nat → AttemptResult) (now : Nat)
    (hev : cfg.disableEvents = false) :
    ∀ (mappings : List (String × String)) (cache : Cache),
    (mappings.map Prod.fst).Nodup →
    (∀ p ∈ mappings, mapGet cache p.1 = none) →
    (∀ p ∈ mappings, ∃ v, attemptFetch env p.2 (srcs p.2 1) = .ok v) →
    ∃ c₁ e₁, fetchAllSecretsGo cfg env srcs mappings cache now = .ok (c₁, e₁) ∧
      (∀ p ∈ mappings, ∃ v, attemptFetch env p.2 (srcs p.2 1) = .ok v ∧
        mapGet c₁ p.1 = some { value := v, fetchedAt := now }) ∧
      (∀ u, e₁.countP (isUpdateEventFor u) =
        if u ∈ mappings.map Prod.fst then 1 else 0) ∧
      e₁.countP isUpdateEvent = mappings.length ∧
      (∀ k, k ∉ mappings.map Prod.fst → mapGet c₁ k = mapGet cache k) := by
  intro mappings
  induction mappings with
  | nil =>
    intro cache _ _ _
    exact ⟨cache, [], rfl, by simp, fun u => rfl, rfl, fun k _ => rfl⟩
  | cons p rest ih =>
    intro cache hnd hfresh hok
    obtain ⟨uid, sid⟩ := p
    obtain ⟨v, hv⟩ := hok (uid, sid) (by simp)
    have hget : mapGet cache uid = none := hfresh (uid, sid) (by simp)
    have hnd' : (rest.map Prod.fst).Nodup := (List.nodup_cons.mp hnd).2
    have huid : uid ∉ rest.map Prod.fst := by
      have := (List.nodup_cons.mp hnd).1
      simpa using this
    have hfetch := fetchSecretWithRetry_ok cfg env (srcs sid) uid sid cache now 1 v hv
    rw [hget] at hfetch
    simp only [Option.elim, if_true, hev, Bool.false_eq_true, ite_false] at hfetch
    have hfresh' : ∀ q ∈ rest, mapGet (mapSet cache uid { value := v, fetchedAt := now }) q.1 = none := by
      intro q hq
      have hne : q.1 ≠ uid := by
        intro hh
        exact huid (hh ▸ List.mem_map_of_mem Prod.fst hq)
      rw [mapGet_mapSet_ne _ _ _ _ hne]
      exact hfresh q (by simp [hq])
    obtain ⟨c₁, e', hgo, hentries, hcounts, htotal, hframe⟩ :=
      ih (mapSet cache uid { value := v, fetchedAt := now }) hnd' hfresh'
        (fun q hq => hok q (by simp [hq]))
    refine ⟨c₁, Event.update uid v now :: e', ?_, ?_, ?_, ?_, ?_⟩
    · simp [fetchAllSecretsGo, hfetch, hgo]
    · intro q hq
      rcases List.mem_cons.mp hq with hq | hq
      · refine ⟨v, by rw [hq]; exact hv, ?_⟩
        rw [hq]
        rw [hframe uid huid, mapGet_mapSet_self]
      · exact hentries q hq
    · intro u
      rw [show (Event.update uid v now :: e') = [Event.update uid v now] ++ e' from rfl,
        List.countP_append, hcounts u]
      by_cases hu : u = uid
      · subst hu
        simp [isUpdateEventFor, List.countP, List.countP.go, huid]
      · have hu' : ¬ uid = u := fun hh => hu hh.symm
        have h1 : List.countP (isUpdateEventFor u) [Event.update uid v now] = 0 := by
          simp [List.countP, List.countP.go, isUpdateEventFor, hu']
        rw [h1]
        by_cases hm : u ∈ List.map Prod.fst rest <;> simp [hm, List.mem_cons, hu]
    · rw [List.countP_cons]
      simp [isUpdateEvent, htotal]
    · intro k hk
      have hk1 : k ≠ uid := by
        intro hh
        exact hk (by simp [hh])
      have hk2 : k ∉ rest.map Prod.fst := by
        intro hh
        exact hk (by simp [hh])
      rw [hframe k hk2, mapGet_mapSet_ne _ _ _ _ hk1]

/-- A full fan-out where every alias's source succeeds at the first
attempt with a value whose serialization matches the cached one:
nothing is written and no event fires. -/
theorem fetchAllSecretsGo_unchanged (cfg : Config) (env : Env)
    (srcs : String → Nat → AttemptResult) (now : Nat) :
    ∀ (mappings : List (String × String)) (cache : Cache),
    (∀ p ∈ mappings, ∃ v e, attemptFetch env p.2 (srcs p.2 1) = .ok v ∧
      mapGet cache p.1 = some e ∧ stringifySV e.value = stringifySV v) →
    fetchAllSecretsGo cfg env srcs mappings cache now = .ok (cache, []) := by
  intro mappings
  induction mappings with
  | nil => intro cache _; rfl
  | cons p rest ih =>
    intro cache hsame
    obtain ⟨uid, sid⟩ := p
    obtain ⟨v, e, hv, he, heq⟩ := hsame (uid, sid) (by simp)
    have hfetch := fetchSecretWithRetry_ok cfg env (srcs sid) uid sid cache now 1 v hv
    rw [he] at hfetch
    simp only [Option.elim, heq, beq_self_eq_true, Bool.not_true, Bool.false_eq_true,
      ite_false, if_false] at hfetch
    simp [fetchAllSecretsGo, hfetch, ih cache (fun q hq => hsame q (by simp [hq]))]

/-! ### Claim theorems -/

/-- C1: for every alias whose fetch permanently fails, with
`maxRetries = N` and `retryDelay = d`, `fetchSecretWithRetry` performs
exactly `N + 1` attempts (one when `N = 0`), emits exactly one `error`
event, and for every `k ≥ 2` the suspension delay before attempt `k`
equals `d * 2 ^ (k - 2)`. -/
theorem claim1_retry_bound_and_backoff (cfg : Config) (env : Env)
    (src : Nat → AttemptResult) (uid sid : String) (cache : Cache) (now : Nat)
    (m : Nat → String)
    (hfail : ∀ a, attemptFetch env sid (src a) = .error (m a))
    (hev : cfg.disableEvents = false) :
    ∃ o, fetchSecretWithRetry cfg env src uid sid cache now 1 = .ok o ∧
      o.attemptsMade = cfg.maxRetries + 1 ∧
      o.events.countP isErrorEvent = 1 ∧
      o.delays.length = cfg.maxRetries ∧
      (∀ k, 2 ≤ k → k ≤ cfg.maxRetries + 1 →
        o.delays[k - 2]? = some (cfg.retryDelay * 2 ^ (k - 2))) := by
  have h := fetchSecretWithRetry_allFail cfg env src uid sid cache now m hfail
    cfg.maxRetries 1 (by omega) (by omega) (by omega)
  refine ⟨_, h, rfl, ?_, by simp, ?_⟩
  · simp [hev, List.countP, List.countP.go, isErrorEvent]
  · intro k h2 hk
    rw [List.getElem?_map, List.getElem?_range (by omega : k - 2 < cfg.maxRetries)]
    simp

/-- C1 witness: `maxRetries = 2`, `retryDelay = 5`, a permanently
throwing source. -/
theorem claim1_witness :
    ∃ o, fetchSecretWithRetry ⟨2, 5, 1000, false⟩ ⟨fun _ => none, fun _ => ""⟩
        (fun _ => .throws "x") "a" "idA" [] 0 1 = .ok o ∧
      o.attemptsMade = 2 + 1 ∧
      o.events.countP isErrorEvent = 1 ∧
      o.delays.length = 2 ∧
      (∀ k, 2 ≤ k → k ≤ 2 + 1 → o.delays[k - 2]? = some (5 * 2 ^ (k - 2))) :=
  claim1_retry_bound_and_backoff ⟨2, 5, 1000, false⟩ ⟨fun _ => none, fun _ => ""⟩
    (fun _ => .throws "x") "a" "idA" [] 0 (fun _ => "x") (fun _ => rfl) rfl

/-- C2: for every registry state and every source behaviour,
`fetchAllSecrets` and `initialize` resolve successfully (the `Except`
is `.ok`); no fetch error propagates to the caller. -/
theorem claim2_fetchAll_init_resolve (cfg : Config) (env : Env)
    (srcs : String → Nat → AttemptResult) (s : CacheState) (now : Nat) :
    (∃ r, fetchAllSecrets cfg env srcs s now = .ok r) ∧
    (∃ r, initCache cfg env srcs s now = .ok r) := by
  obtain ⟨⟨c, evs⟩, hr⟩ := fetchAllSecretsGo_isOk cfg env srcs now s.secretMappings s.cache
  constructor
  · exact ⟨({ s with cache := c }, evs), by simp [fetchAllSecrets, hr]⟩
  · rcases h2 : startScheduledRefresh cfg { s with cache := c } now with ⟨s2, evs2, b⟩
    exact ⟨(s2, evs ++ evs2), by simp [initCache, fetchAllSecrets, hr, h2]⟩

/-- C2 witness: a one-alias registry whose source always throws. -/
theorem claim2_witness :
    (∃ r, fetchAllSecrets ⟨3, 100, 1000, false⟩ ⟨fun _ => none, fun _ => ""⟩
      (fun _ _ => .throws "down") ⟨[], [("a", "idA")], false, false, false⟩ 0 = .ok r) ∧
    (∃ r, initCache ⟨3, 100, 1000, false⟩ ⟨fun _ => none, fun _ => ""⟩
      (fun _ _ => .throws "down") ⟨[], [("a", "idA")], false, false, false⟩ 0 = .ok r) :=
  claim2_fetchAll_init_resolve ⟨3, 100, 1000, false⟩ ⟨fun _ => none, fun _ => ""⟩
    (fun _ _ => .throws "down") ⟨[], [("a", "idA")], false, false, false⟩ 0

/-- C4: a fetch that exhausts its retries leaves the cache completely
unchanged; `getSecret` afterwards returns exactly what it returned
before (the stale value if one was cached, absence otherwise). -/
theorem claim4_exhaustion_leaves_store (cfg : Config) (env : Env)
    (src : Nat → AttemptResult) (uid sid : String) (cache : Cache) (now : Nat)
    (m : Nat → String)
    (hfail : ∀ a, attemptFetch env sid (src a) = .error (m a)) :
    ∃ o, fetchSecretWithRetry cfg env src uid sid cache now 1 = .ok o ∧
      o.cache = cache ∧
      (∀ k, getSecretFrom o.cache k = getSecretFrom cache k) := by
  have h := fetchSecretWithRetry_allFail cfg env src uid sid cache now m hfail
    cfg.maxRetries 1 (by omega) (by omega) (by omega)
  exact ⟨_, h, rfl, fun k => rfl⟩

/-- C4 witness: a cached entry for "a" survives an exhausted fetch; an
uncached alias "b" stays absent. -/
theorem claim4_witness :
    ∃ o, fetchSecretWithRetry ⟨1, 7, 1000, false⟩ ⟨fun _ => none, fun _ => ""⟩
        (fun _ => .returns none) "a" "idA"
        [("a", { value := .text "old", fetchedAt := 2 })] 9 1 = .ok o ∧
      o.cache = [("a", { value := .text "old", fetchedAt := 2 })] ∧
      (∀ k, getSecretFrom o.cache k =
        getSecretFrom [("a", { value := .text "old", fetchedAt := 2 })] k) :=
  claim4_exhaustion_leaves_store ⟨1, 7, 1000, false⟩ ⟨fun _ => none, fun _ => ""⟩
    (fun _ => .returns none) "a" "idA"
    [("a", { value := .text "old", fetchedAt := 2 })] 9
    (fun _ => "No response received for secret idA") (fun _ => rfl)

/-- C5: the scheduler is a two-state machine: `start` on a stopped
scheduler sets running and arms the timer (one `start` event unless
events are disabled); `start` on a running scheduler is a no-op that
arms nothing and emits nothing; `stop` on a running scheduler (whose
interval id is set, as `start` always leaves it) cancels the timer and
clears running; `stop` on a stopped scheduler cancels nothing and
emits nothing. -/
theorem claim5_scheduler_state_machine (cfg : Config) (s : CacheState) (now : Nat) :
    (s.isRunning = false →
      startScheduledRefresh cfg s now =
        ({ s with isRunning := true, intervalSet := true, timerArmed := true },
         (if cfg.disableEvents then [] else [Event.start now]), true)) ∧
    (s.isRunning = true → startScheduledRefresh cfg s now = (s, [], false)) ∧
    (s.isRunning = true → s.intervalSet = true →
      stopScheduledRefresh cfg s now =
        ({ s with isRunning := false, timerArmed := false },
         (if cfg.disableEvents then [] else [Event.stop now]), true)) ∧
    (s.isRunning = false → stopScheduledRefresh cfg s now = (s, [], false)) := by
  refine ⟨fun h => ?_, fun h => ?_, fun h h2 => ?_, fun h => ?_⟩
  · simp [startScheduledRefresh, h]
  · simp [startScheduledRefresh, h]
  · simp [stopScheduledRefresh, h, h2]
  · simp [stopScheduledRefresh, h]

/-- C5 witness: both transitions and both no-ops at concrete states. -/
theorem claim5_witness :
    startScheduledRefresh ⟨3, 100, 1000, false⟩ ⟨[], [], false, false, false⟩ 4 =
      (⟨[], [], true, true, true⟩, [Event.start 4], true) ∧
    startScheduledRefresh ⟨3, 100, 1000, false⟩ ⟨[], [], true, true, true⟩ 4 =
      (⟨[], [], true, true, true⟩, [], false) ∧
    stopScheduledRefresh ⟨3, 100, 1000, false⟩ ⟨[], [], true, true, true⟩ 4 =
      (⟨[], [], false, true, false⟩, [Event.stop 4], true) ∧
    stopScheduledRefresh ⟨3, 100, 1000, false⟩ ⟨[], [], false, true, false⟩ 4 =
      (⟨[], [], false, true, false⟩, [], false) :=
  ⟨(claim5_scheduler_state_machine ⟨3, 100, 1000, false⟩ ⟨[], [], false, false, false⟩ 4).1 rfl,
   (claim5_scheduler_state_machine ⟨3, 100, 1000, false⟩ ⟨[], [], true, true, true⟩ 4).2.1 rfl,
   (claim5_scheduler_state_machine ⟨3, 100, 1000, false⟩ ⟨[], [], true, true, true⟩ 4).2.2.1 rfl rfl,
   (claim5_scheduler_state_machine ⟨3, 100, 1000, false⟩ ⟨[], [], false, true, false⟩ 4).2.2.2 rfl⟩

/-- C3: a successful fetch whose decoded value serializes equal to the
cached one writes nothing and emits nothing; consequently a second
`fetchAllSecrets` against an unchanged source yields exactly one
`update` event per alias from the first call (on a fresh cache) and
zero from the second. -/
theorem claim3_idempotence (cfg : Config) (env : Env) :
    (∀ (src : Nat → AttemptResult) (uid sid : String) (cache : Cache) (now : Nat)
       (v : SecretValue) (e : CacheEntry),
       attemptFetch env sid (src 1) = .ok v →
       mapGet cache uid = some e →
       stringifySV e.value = stringifySV v →
       fetchSecretWithRetry cfg env src uid sid cache now 1 =
         .ok { cache := cache, events := [], delays := [], attemptsMade := 1 }) ∧
    (∀ (srcs : String → Nat → AttemptResult) (mappings : List (String × String))
       (now now2 : Nat),
       cfg.disableEvents = false →
       (mappings.map Prod.fst).Nodup →
       (∀ p ∈ mappings, ∃ v, attemptFetch env p.2 (srcs p.2 1) = .ok v) →
       ∃ c₁ e₁, fetchAllSecretsGo cfg env srcs mappings [] now = .ok (c₁, e₁) ∧
         (∀ u ∈ mappings.map Prod.fst, e₁.countP (isUpdateEventFor u) = 1) ∧
         e₁.countP isUpdateEvent = mappings.length ∧
         fetchAllSecretsGo cfg env srcs mappings c₁ now2 = .ok (c₁, [])) := by
  constructor
  · intro src uid sid cache now v e hok hget heq
    have hfetch := fetchSecretWithRetry_ok cfg env src uid sid cache now 1 v hok
    rw [hget] at hfetch
    simp only [Option.elim, heq, beq_self_eq_true, Bool.not_true, Bool.false_eq_true,
      ite_false, if_false] at hfetch
    exact hfetch
  · intro srcs mappings now now2 hev hnd hok
    obtain ⟨c₁, e₁, hgo, hentries, hcounts, htotal, -⟩ :=
      fetchAllSecretsGo_fresh cfg env srcs now hev mappings []
        hnd (fun p _ => rfl) hok
    refine ⟨c₁, e₁, hgo, ?_, htotal, ?_⟩
    · intro u hu
      rw [hcounts u, if_pos hu]
    · apply fetchAllSecretsGo_unchanged
      intro p hp
      obtain ⟨v, hv, hc⟩ := hentries p hp
      exact ⟨v, { value := v, fetchedAt := now }, hv, hc, rfl⟩

/-- C3 witness: a cache already holding the decoded value (no write, no
event), and the two-call scenario over a one-alias registry. -/
theorem claim3_witness :
    (fetchSecretWithRetry ⟨3, 100, 1000, false⟩
        ⟨fun _ => some (Json.str "w"), fun _ => ""⟩
        (fun _ => .returns (some { SecretString := some "j", SecretBinary := none }))
        "a" "idA" [("a", { value := .json (Json.str "w"), fetchedAt := 2 })] 9 1 =
      .ok { cache := [("a", { value := .json (Json.str "w"), fetchedAt := 2 })],
            events := [], delays := [], attemptsMade := 1 }) ∧
    (∃ c₁ e₁, fetchAllSecretsGo ⟨3, 100, 1000, false⟩
        ⟨fun _ => some (Json.str "w"), fun _ => ""⟩
        (fun _ _ => .returns (some { SecretString := some "j", SecretBinary := none }))
        [("a", "idA")] [] 9 = .ok (c₁, e₁) ∧
      (∀ u ∈ [("a", "idA")].map Prod.fst, e₁.countP (isUpdateEventFor u) = 1) ∧
      e₁.countP isUpdateEvent = [("a", "idA")].length ∧
      fetchAllSecretsGo ⟨3, 100, 1000, false⟩
        ⟨fun _ => some (Json.str "w"), fun _ => ""⟩
        (fun _ _ => .returns (some { SecretString := some "j", SecretBinary := none }))
        [("a", "idA")] c₁ 11 = .ok (c₁, [])) :=
  ⟨(claim3_idempotence ⟨3, 100, 1000, false⟩ ⟨fun _ => some (Json.str "w"), fun _ => ""⟩).1
     (fun _ => .returns (some { SecretString := some "j", SecretBinary := none }))
     "a" "idA" [("a", { value := .json (Json.str "w"), fetchedAt := 2 })] 9
     (.json (Json.str "w")) { value := .json (Json.str "w"), fetchedAt := 2 }
     (by simp [attemptFetch, truthyString, show "j".isEmpty = false from rfl]) rfl rfl,
   (claim3_idempotence ⟨3, 100, 1000, false⟩ ⟨fun _ => some (Json.str "w"), fun _ => ""⟩).2
     (fun _ _ => .returns (some { SecretString := some "j", SecretBinary := none }))
     [("a", "idA")] 9 11 rfl (by simp)
     (fun p _ => ⟨.json (Json.str "w"),
       by simp [attemptFetch, truthyString, show "j".isEmpty = false from rfl]⟩)⟩

/-- C6: after `clearCache` in any reachable state (`isRunning` implies
the interval id is set, which `startScheduledRefresh` establishes),
every alias reads back absent, the cache size is 0, the scheduler is
stopped, a `clear` event is emitted unless events are disabled, and the
alias registry is untouched. -/
theorem claim6_clearCache_effect (cfg : Config) (s : CacheState) (now : Nat)
    (hinv : s.isRunning = true → s.intervalSet = true) :
    (clearCache cfg s now).1.cache = [] ∧
    (∀ k, getSecret (clearCache cfg s now).1 k = none) ∧
    getCacheStats (clearCache cfg s now).1 = 0 ∧
    (clearCache cfg s now).1.isRunning = false ∧
    (cfg.disableEvents = false → Event.clear now ∈ (clearCache cfg s now).2) ∧
    (cfg.disableEvents = true → (clearCache cfg s now).2 = []) ∧
    (clearCache cfg s now).1.secretMappings = s.secretMappings := by
  cases hrun : s.isRunning with
  | false =>
    refine ⟨?_, ?_, ?_, ?_, ?_, ?_, ?_⟩ <;>
      simp [clearCache, stopScheduledRefresh, hrun, getSecret, getSecretFrom, mapGet,
        getCacheStats]
  | true =>
    have hset := hinv hrun
    refine ⟨?_, ?_, ?_, ?_, ?_, ?_, ?_⟩ <;>
      simp [clearCache, stopScheduledRefresh, hrun, hset, getSecret, getSecretFrom,
        mapGet, getCacheStats]

/-- C6 witness: clearing a running instance with one cached entry. -/
theorem claim6_witness :
    (clearCache ⟨3, 100, 1000, false⟩
        ⟨[("a", { value := .text "x", fetchedAt := 1 })], [("a", "idA")], true, true, true⟩
        7).1.cache = [] ∧
    (∀ k, getSecret (clearCache ⟨3, 100, 1000, false⟩
        ⟨[("a", { value := .text "x", fetchedAt := 1 })], [("a", "idA")], true, true, true⟩
        7).1 k = none) ∧
    getCacheStats (clearCache ⟨3, 100, 1000, false⟩
        ⟨[("a", { value := .text "x", fetchedAt := 1 })], [("a", "idA")], true, true, true⟩
        7).1 = 0 ∧
    (clearCache ⟨3, 100, 1000, false⟩
        ⟨[("a", { value := .text "x", fetchedAt := 1 })], [("a", "idA")], true, true, true⟩
        7).1.isRunning = false ∧
    ((⟨3, 100, 1000, false⟩ : Config).disableEvents = false →
      Event.clear 7 ∈ (clearCache ⟨3, 100, 1000, false⟩
        ⟨[("a", { value := .text "x", fetchedAt := 1 })], [("a", "idA")], true, true, true⟩
        7).2) ∧
    ((⟨3, 100, 1000, false⟩ : Config).disableEvents = true →
      (clearCache ⟨3, 100, 1000, false⟩
        ⟨[("a", { value := .text "x", fetchedAt := 1 })], [("a", "idA")], true, true, true⟩
        7).2 = []) ∧
    (clearCache ⟨3, 100, 1000, false⟩
        ⟨[("a", { value := .text "x", fetchedAt := 1 })], [("a", "idA")], true, true, true⟩
        7).1.secretMappings = [("a", "idA")] :=
  claim6_clearCache_effect ⟨3, 100, 1000, false⟩
    ⟨[("a", { value := .text "x", fetchedAt := 1 })], [("a", "idA")], true, true, true⟩
    7 (fun _ => rfl)

/-- C7: `addSecretMapping` upserts the registry mapping and performs
exactly one (non-retried) fetch for that alias; on first-attempt
success over a fresh alias, `getSecret` afterwards returns the decoded
value — in particular a binary payload `X` decodes to
`Buffer.from(X).toString`. -/
theorem claim7_addSecretMapping (cfg : Config) (env : Env) (src : Nat → AttemptResult)
    (s : CacheState) (uid sid : String) (now : Nat) (v : SecretValue)
    (hok : attemptFetch env sid (src 1) = .ok v)
    (hfresh : mapGet s.cache uid = none) :
    (∃ st evs, addSecretMapping cfg env src s uid sid now = .ok (st, evs) ∧
      mapGet st.secretMappings uid = some sid ∧
      getSecret st uid = some v ∧
      (∃ o, fetchSecretWithRetry cfg env src uid sid s.cache now 1 = .ok o ∧
        o.attemptsMade = 1 ∧ o.delays = [] ∧ st.cache = o.cache)) ∧
    (∀ X, attemptFetch env sid
        (.returns (some { SecretString := none, SecretBinary := some X })) =
      .ok (.text (env.utf8Decode X))) := by
  constructor
  · have hfetch := fetchSecretWithRetry_ok cfg env src uid sid s.cache now 1 v hok
    rw [hfresh] at hfetch
    simp only [Option.elim, if_true] at hfetch
    refine ⟨{ s with secretMappings := mapSet s.secretMappings uid sid, cache := mapSet s.cache uid { value := v, fetchedAt := now } }, (if cfg.disableEvents then [] else [Event.update uid v now]), ?_, ?_, ?_, ?_⟩
    · simp [addSecretMapping, hfetch]
    · exact mapGet_mapSet_self s.secretMappings uid sid
    · simp [getSecret, getSecretFrom, mapGet_mapSet_self]
    · exact ⟨_, hfetch, rfl, rfl, rfl⟩
  · intro X
    rfl

/-- C7 witness: adding alias "b" whose source returns a binary payload. -/
theorem claim7_witness :
    (∃ st evs, addSecretMapping ⟨3, 100, 1000, false⟩
        ⟨fun _ => none, fun bs => String.mk (bs.map Char.ofNat)⟩
        (fun _ => .returns (some { SecretString := none, SecretBinary := some [104, 105] }))
        ⟨[], [("a", "idA")], false, false, false⟩ "b" "idB" 6 = .ok (st, evs) ∧
      mapGet st.secretMappings "b" = some "idB" ∧
      getSecret st "b" = some (.text "hi") ∧
      (∃ o, fetchSecretWithRetry ⟨3, 100, 1000, false⟩
          ⟨fun _ => none, fun bs => String.mk (bs.map Char.ofNat)⟩
          (fun _ => .returns (some { SecretString := none, SecretBinary := some [104, 105] }))
          "b" "idB" [] 6 1 = .ok o ∧
        o.attemptsMade = 1 ∧ o.delays = [] ∧ st.cache = o.cache)) ∧
    (∀ X, attemptFetch ⟨fun _ => none, fun bs => String.mk (bs.map Char.ofNat)⟩ "idB"
        (.returns (some { SecretString := none, SecretBinary := some X })) =
      .ok (.text (String.mk (X.map Char.ofNat)))) :=
  claim7_addSecretMapping ⟨3, 100, 1000, false⟩
    ⟨fun _ => none, fun bs => String.mk (bs.map Char.ofNat)⟩
    (fun _ => .returns (some { SecretString := none, SecretBinary := some [104, 105] }))
    ⟨[], [("a", "idA")], false, false, false⟩ "b" "idB" 6 (.text "hi")
    (by simp [attemptFetch, truthyString]) rfl

/-- C8: a response whose text payload fails `JSON.parse` is a thrown
exception, treated identically to a fetch failure: the whole run equals
that of a source that throws, it enters the retry path with the same
backoff, writes nothing, and emits no `update` event. -/
theorem claim8_decode_failure_retries (cfg : Config) (env : Env)
    (src : Nat → AttemptResult) (uid sid : String) (cache : Cache) (now : Nat)
    (hparse : ∀ a, ∃ resp, src a = .returns (some resp) ∧
      truthyString resp.SecretString = true ∧
      env.parseJson (resp.SecretString.getD "") = none) :
    (∀ a, attemptFetch env sid (src a) = .error "Unexpected token in JSON") ∧
    fetchSecretWithRetry cfg env src uid sid cache now 1 =
      fetchSecretWithRetry cfg env (fun _ => .throws "Unexpected token in JSON")
        uid sid cache now 1 ∧
    ∃ o, fetchSecretWithRetry cfg env src uid sid cache now 1 = .ok o ∧
      o.cache = cache ∧
      o.attemptsMade = cfg.maxRetries + 1 ∧
      o.delays = (List.range cfg.maxRetries).map (fun i => cfg.retryDelay * 2 ^ i) ∧
      o.events.countP isUpdateEvent = 0 := by
  have hfail : ∀ a, attemptFetch env sid (src a) = .error "Unexpected token in JSON" := by
    intro a
    obtain ⟨resp, hr, ht, hp⟩ := hparse a
    rw [hr]
    simp [attemptFetch, ht, hp]
  have h1 := fetchSecretWithRetry_allFail cfg env src uid sid cache now
    (fun _ => "Unexpected token in JSON") hfail cfg.maxRetries 1
    (by omega) (by omega) (by omega)
  have h2 := fetchSecretWithRetry_allFail cfg env
    (fun _ => .throws "Unexpected token in JSON") uid sid cache now
    (fun _ => "Unexpected token in JSON") (fun _ => rfl) cfg.maxRetries 1
    (by omega) (by omega) (by omega)
  refine ⟨hfail, by rw [h1, h2], ?_⟩
  refine ⟨_, h1, rfl, rfl, ?_, ?_⟩
  · simp
  · cases hev : cfg.disableEvents <;>
      simp [hev, List.countP, List.countP.go, isUpdateEvent]

/-- C8 witness: every attempt returns a malformed text payload under a
parser that always fails. -/
theorem claim8_witness :
    (∀ a : Nat, attemptFetch ⟨fun _ => none, fun _ => ""⟩ "idA"
        (AttemptResult.returns
          (some { SecretString := some "oops", SecretBinary := none })) =
      .error "Unexpected token in JSON") ∧
    fetchSecretWithRetry ⟨2, 10, 1000, false⟩ ⟨fun _ => none, fun _ => ""⟩
        (fun _ => .returns (some { SecretString := some "oops", SecretBinary := none }))
        "a" "idA" [] 3 1 =
      fetchSecretWithRetry ⟨2, 10, 1000, false⟩ ⟨fun _ => none, fun _ => ""⟩
        (fun _ => .throws "Unexpected token in JSON") "a" "idA" [] 3 1 ∧
    ∃ o, fetchSecretWithRetry ⟨2, 10, 1000, false⟩ ⟨fun _ => none, fun _ => ""⟩
        (fun _ => .returns (some { SecretString := some "oops", SecretBinary := none }))
        "a" "idA" [] 3 1 = .ok o ∧
      o.cache = [] ∧
      o.attemptsMade = 2 + 1 ∧
      o.delays = (List.range 2).map (fun i => 10 * 2 ^ i) ∧
      o.events.countP isUpdateEvent = 0 :=
  claim8_decode_failure_retries ⟨2, 10, 1000, false⟩ ⟨fun _ => none, fun _ => ""⟩
    (fun _ => .returns (some { SecretString := some "oops", SecretBinary := none }))
    "a" "idA" [] 3
    (fun _ => ⟨{ SecretString := some "oops", SecretBinary := none }, rfl,
      by simp [truthyString, show "oops".isEmpty = false from rfl], rfl⟩)

/-- C9: the cache only ever grows through the success branch of
`fetchSecretWithRetry` (every entry it leaves is either the old one or
a successfully decoded value at the fetched alias), while
`removeSecretMapping` and `clearCache` only shrink it. -/
theorem claim9_store_only_successful_writes (cfg : Config) (env : Env)
    (src : Nat → AttemptResult) (uid sid : String) (cache : Cache) (now : Nat)
    (s : CacheState) (u2 : String) (n2 : Nat) :
    (∃ o, fetchSecretWithRetry cfg env src uid sid cache now 1 = .ok o ∧
      (∀ k, k ≠ uid → mapGet o.cache k = mapGet cache k) ∧
      (mapGet o.cache uid = mapGet cache uid ∨
        ∃ a v, attemptFetch env sid (src a) = .ok v ∧
          mapGet o.cache uid = some { value := v, fetchedAt := now })) ∧
    (∀ k e, mapGet (removeSecretMapping cfg s u2 n2).1.cache k = some e →
      mapGet s.cache k = some e) ∧
    (clearCache cfg s n2).1.cache = [] := by
  refine ⟨?_, ?_, ?_⟩
  · obtain ⟨o, ho, hd⟩ := fetchSecretWithRetry_frame cfg env src uid sid cache now
      (cfg.maxRetries + 1) 1 (by omega)
    refine ⟨o, ho, ?_, ?_⟩
    · intro k hk
      rcases hd with hd | ⟨a, v, hv, hd⟩
      · rw [hd]
      · rw [hd, mapGet_mapSet_ne _ _ _ _ hk]
    · rcases hd with hd | ⟨a, v, hv, hd⟩
      · exact Or.inl (by rw [hd])
      · exact Or.inr ⟨a, v, hv, by rw [hd, mapGet_mapSet_self]⟩
  · intro k e hk
    have := mapGet_mapDelete s.cache u2 k
    rw [show (removeSecretMapping cfg s u2 n2).1.cache = mapDelete s.cache u2 from rfl]
      at hk
    rw [this] at hk
    by_cases hke : k = u2
    · rw [if_pos hke] at hk
      exact absurd hk (by simp)
    · rwa [if_neg hke] at hk
  · cases hrun : s.isRunning with
    | false => simp [clearCache, stopScheduledRefresh, hrun]
    | true =>
      cases hset : s.intervalSet <;>
        simp [clearCache, stopScheduledRefresh, hrun, hset]

/-- C9 witness: a first-attempt-success fetch over a one-entry cache,
removal of a mapped alias, and a clear. -/
theorem claim9_witness :
    (∃ o, fetchSecretWithRetry ⟨3, 100, 1000, false⟩
        ⟨fun _ => some Json.null, fun _ => ""⟩
        (fun _ => .returns (some { SecretString := some "null", SecretBinary := none }))
        "a" "idA" [("b", { value := .text "y", fetchedAt := 1 })] 5 1 = .ok o ∧
      (∀ k, k ≠ "a" → mapGet o.cache k =
        mapGet [("b", { value := .text "y", fetchedAt := 1 })] k) ∧
      (mapGet o.cache "a" = mapGet [("b", { value := .text "y", fetchedAt := 1 })] "a" ∨
        ∃ a : Nat, ∃ v, attemptFetch ⟨fun _ => some Json.null, fun _ => ""⟩ "idA"
            (AttemptResult.returns
              (some { SecretString := some "null", SecretBinary := none })) = .ok v ∧
          mapGet o.cache "a" = some { value := v, fetchedAt := 5 })) ∧
    (∀ k e, mapGet (removeSecretMapping ⟨3, 100, 1000, false⟩
        ⟨[("b", { value := .text "y", fetchedAt := 1 })], [("b", "idB")], false, false, false⟩
        "b" 6).1.cache k = some e →
      mapGet [("b", { value := .text "y", fetchedAt := 1 })] k = some e) ∧
    (clearCache ⟨3, 100, 1000, false⟩
      ⟨[("b", { value := .text "y", fetchedAt := 1 })], [("b", "idB")], false, false, false⟩
      6).1.cache = [] :=
  claim9_store_only_successful_writes ⟨3, 100, 1000, false⟩
    ⟨fun _ => some Json.null, fun _ => ""⟩
    (fun _ => .returns (some { SecretString := some "null", SecretBinary := none }))
    "a" "idA" [("b", { value := .text "y", fetchedAt := 1 })] 5
    ⟨[("b", { value := .text "y", fetchedAt := 1 })], [("b", "idB")], false, false, false⟩
    "b" 6

/-- C10: a non-null response with neither a (truthy) text payload nor a
binary payload decodes successfully to the empty string, which is then
cached and announced like any other value change. -/
theorem claim10_empty_payload_is_success (cfg : Config) (env : Env)
    (src : Nat → AttemptResult) (uid sid : String) (cache : Cache) (now : Nat)
    (hsrc : src 1 = .returns (some { SecretString := none, SecretBinary := none }))
    (hfresh : mapGet cache uid = none)
    (hev : cfg.disableEvents = false) :
    attemptFetch env sid (src 1) = .ok (.text "") ∧
    fetchSecretWithRetry cfg env src uid sid cache now 1 =
      .ok { cache := mapSet cache uid { value := .text "", fetchedAt := now }
            events := [Event.update uid (.text "") now]
            delays := []
            attemptsMade := 1 } := by
  have hok : attemptFetch env sid (src 1) = .ok (.text "") := by
    rw [hsrc]
    rfl
  refine ⟨hok, ?_⟩
  have hfetch := fetchSecretWithRetry_ok cfg env src uid sid cache now 1 (.text "") hok
  rw [hfresh] at hfetch
  simp only [Option.elim, if_true, hev, Bool.false_eq_true, ite_false] at hfetch
  exact hfetch

/-- C10 witness: an alias with no cached entry receiving an empty
response. -/
theorem claim10_witness :
    attemptFetch ⟨fun _ => none, fun _ => ""⟩ "idA"
        (AttemptResult.returns
          (some { SecretString := none, SecretBinary := none })) = .ok (.text "") ∧
    fetchSecretWithRetry ⟨3, 100, 1000, false⟩ ⟨fun _ => none, fun _ => ""⟩
        (fun _ => .returns (some { SecretString := none, SecretBinary := none }))
        "a" "idA" [] 8 1 =
      .ok { cache := mapSet [] "a" { value := .text "", fetchedAt := 8 }
            events := [Event.update "a" (.text "") 8]
            delays := []
            attemptsMade := 1 } :=
  claim10_empty_payload_is_success ⟨3, 100, 1000, false⟩ ⟨fun _ => none, fun _ => ""⟩
    (fun _ => .returns (some { SecretString := none, SecretBinary := none }))
    "a" "idA" [] 8 rfl rfl rfl

end AwsSecretsCache
